import Mathlib

/-!
Shallow embedding of the Node subsystem of iceoryx2 (`src/iceoryx2/src/node/mod.rs`).

Backend primitives (Monitoring, StaticStorage, serializer) live outside this
module; their outcomes are supplied as explicit oracle records, so every
function below is the deterministic image of the corresponding Rust function
for one fixed assignment of backend outcomes. `fatal_panic!` paths are modelled
by the `fatal` constructor of `ExecResult`; `fail!`-with-error paths by `err`.
-/

namespace Iceoryx2

/-- Result of running a fallible Rust function that may also abort the process
via a fatal panic. -/
inductive ExecResult (ε α : Type) where
  | ok : α → ExecResult ε α
  | err : ε → ExecResult ε α
  | fatal : ExecResult ε α
deriving DecidableEq

/-- Embeds a plain fallible result (a Rust function with no panic path). -/
def execOfExcept {ε α : Type} : Except ε α → ExecResult ε α
  | .ok a => .ok a
  | .error e => .err e

abbrev FileName := String

abbrev NodeName := String

/-- Abstract stand-in for the iceoryx2 `Config`; its contents never influence
the control flow modelled here (it only selects backend paths, which are
absorbed into the backend oracles). -/
structure Config where
  tag : Nat
deriving DecidableEq

def Config.get_global_config : Config := ⟨0⟩

/-- The unique system id: the modelled fields are the originating process id
and a discriminating counter. -/
structure UniqueSystemId where
  pid : Nat
  counter : Nat
deriving DecidableEq

/-- The system-wide unique id of a Node, wrapping a `UniqueSystemId`. -/
structure NodeId where
  usid : UniqueSystemId
deriving DecidableEq

def NodeId.pid (id : NodeId) : Nat := id.usid.pid

structure NodeDetails where
  name : NodeName
  config : Config
deriving DecidableEq

inductive NodeCleanupFailure where
  | Interrupt
  | InternalError
  | InsufficientPermissions
deriving DecidableEq

inductive NodeListFailure where
  | InsufficientPermissions
  | Interrupt
  | InternalError
deriving DecidableEq

inductive NodeReadStorageFailure where
  | ReadError
  | Corrupted
  | InternalError
deriving DecidableEq

inductive NamedConceptListError where
  | InsufficientPermissions
  | InternalError
deriving DecidableEq

inductive NamedConceptRemoveError where
  | InsufficientPermissions
  | InternalError
deriving DecidableEq

inductive NamedConceptPathHintRemoveError where
  | InsufficientPermissions
  | InternalError
deriving DecidableEq

inductive MonitoringCreateCleanerError where
  | AlreadyOwnedByAnotherInstance
  | DoesNotExist
  | Interrupt
  | InstanceStillAlive
  | InternalError
deriving DecidableEq

inductive MonitoringCreateMonitorError where
  | InsufficientPermissions
  | Interrupt
  | InternalError
deriving DecidableEq

inductive MonitoringStateError where
  | Interrupt
  | InternalError
deriving DecidableEq

/-- The monitoring state of a node as reported by the Monitoring backend. -/
inductive State where
  | DoesNotExist
  | Alive
  | Dead
deriving DecidableEq

inductive StaticStorageOpenError where
  | DoesNotExist
  | Read
  | IsLocked
  | InternalError
deriving DecidableEq

inductive DeserializeError where
  | InternalError
deriving DecidableEq

inductive NodeEvent where
  | Tick
  | TerminationRequest
  | InterruptSignal
deriving DecidableEq

inductive CallbackProgression where
  | Continue
  | Stop
deriving DecidableEq

/-- Oracle for the StaticStorage named-concept management operations used by
the cleanup path: `list_cfg`, `remove_cfg` per entry and `remove_path_hint`. -/
structure StaticStorageBackend where
  listResult : Except NamedConceptListError (List FileName)
  removeResult : FileName → Except NamedConceptRemoveError Unit
  removePathHintResult : Except NamedConceptPathHintRemoveError Unit

/-- Oracle for the Monitoring backend operations on one monitor name:
`Builder::cleaner()`, `Builder::monitor()` and `Monitor::state()`. -/
structure MonitoringBackend where
  cleanerResult : Except MonitoringCreateCleanerError Unit
  monitorResult : Except MonitoringCreateMonitorError Unit
  stateResult : Except MonitoringStateError State

/-- Oracle for reading one node's details storage: `Builder::open()`, the
`read` of its contents and the deserialization of those contents. -/
structure DetailsBackend where
  openResult : Except StaticStorageOpenError Unit
  readResult : Except Unit Unit
  deserializeResult : Except DeserializeError NodeDetails

/-- All the informations of a Node that is alive: its id and, when readable,
its details. -/
structure AliveNodeView where
  id : NodeId
  details : Option NodeDetails
deriving DecidableEq

/-- All the informations belonging to a dead Node (a wrapper over
`AliveNodeView` as in the source). -/
structure DeadNodeView where
  view : AliveNodeView
deriving DecidableEq

def DeadNodeView.id (v : DeadNodeView) : NodeId := v.view.id

def DeadNodeView.details (v : DeadNodeView) : Option NodeDetails := v.view.details

/-- The classified state of a Node. -/
inductive NodeState where
  | Alive (view : AliveNodeView)
  | Dead (view : DeadNodeView)
  | Inaccessible (id : NodeId)
  | Undefined (id : NodeId)
deriving DecidableEq

/-- `acquire_all_node_detail_storages`: lists all node detail storages,
mapping `NamedConceptListError` into `NodeCleanupFailure`. -/
def acquire_all_node_detail_storages (origin : String) (sb : StaticStorageBackend) :
    Except NodeCleanupFailure (List FileName) :=
  match origin, sb.listResult with
  | _, .ok v => .ok v
  | _, .error .InsufficientPermissions => .error .InsufficientPermissions
  | _, .error .InternalError => .error .InternalError

/-- `remove_detail_storages`: removes each listed storage, stopping at the
first failure. The source maps both `NamedConceptRemoveError` variants,
including `InternalError`, to `NodeCleanupFailure::InsufficientPermissions`. -/
def remove_detail_storages (origin : String) (storages : List FileName)
    (sb : StaticStorageBackend) : Except NodeCleanupFailure Unit :=
  match storages with
  | [] => .ok ()
  | entry :: rest =>
    match sb.removeResult entry with
    | .ok _ => remove_detail_storages origin rest sb
    | .error .InsufficientPermissions => .error .InsufficientPermissions
    | .error .InternalError => .error .InsufficientPermissions

/-- `remove_node_details_directory`: removes the per-node details directory. -/
def remove_node_details_directory (sb : StaticStorageBackend) :
    Except NodeCleanupFailure Unit :=
  match sb.removePathHintResult with
  | .ok _ => .ok ()
  | .error .InsufficientPermissions => .error .InsufficientPermissions
  | .error .InternalError => .error .InternalError

/-- `remove_node`: lists the detail storages, removes each of them, then
removes the details directory; returns `true` on success. -/
def remove_node (id : NodeId) (details : NodeDetails) (sb : StaticStorageBackend) :
    Except NodeCleanupFailure Bool :=
  match acquire_all_node_detail_storages "remove_node" sb with
  | .error e => .error e
  | .ok detail_storages =>
    match remove_detail_storages "remove_node" detail_storages sb with
    | .error e => .error e
    | .ok _ =>
      match remove_node_details_directory sb with
      | .error e => .error e
      | .ok _ => .ok true

/-- `DeadNodeView::remove_stale_resources`: acquires the monitoring cleaner;
on the two benign acquisition failures returns `Ok(false)`; on `Interrupt` and
`InternalError` fails accordingly; on `InstanceStillAlive` panics fatally;
once the cleaner is held, removes the node's artifacts when details are
available, and otherwise reports `Ok(true)` with nothing to remove. -/
def DeadNodeView.remove_stale_resources (v : DeadNodeView) (mb : MonitoringBackend)
    (sb : StaticStorageBackend) : ExecResult NodeCleanupFailure Bool :=
  match mb.cleanerResult with
  | .error .AlreadyOwnedByAnotherInstance => .ok false
  | .error .DoesNotExist => .ok false
  | .error .Interrupt => .err .Interrupt
  | .error .InternalError => .err .InternalError
  | .error .InstanceStillAlive => .fatal
  | .ok _ =>
    match v.details with
    | some details => execOfExcept (remove_node v.id details sb)
    | none => .ok true

/-- `Node::open_node_storage`: opens the `node` details artifact;
`DoesNotExist` is suppressed to `None`, the remaining open failures map into
`NodeReadStorageFailure`. -/
def open_node_storage (db : DetailsBackend) :
    Except NodeReadStorageFailure (Option Unit) :=
  match db.openResult with
  | .ok s => .ok (some s)
  | .error .DoesNotExist => .ok none
  | .error .Read => .error .ReadError
  | .error .IsLocked => .error .Corrupted
  | .error .InternalError => .error .InternalError

/-- `Node::get_node_details`: opens the storage (absent storage yields `None`),
reads its contents and deserializes them into `NodeDetails`. -/
def get_node_details (db : DetailsBackend) :
    Except NodeReadStorageFailure (Option NodeDetails) :=
  match open_node_storage db with
  | .error e => .error e
  | .ok none => .ok none
  | .ok (some _) =>
    match db.readResult with
    | .error _ => .error .ReadError
    | .ok _ =>
      match db.deserializeResult with
      | .error _ => .error .Corrupted
      | .ok node_details => .ok (some node_details)

/-- `Node::state_from_monitor`: maps `Monitor::state()` outcomes into
`NodeListFailure`. -/
def state_from_monitor (mb : MonitoringBackend) : Except NodeListFailure State :=
  match mb.stateResult with
  | .ok result => .ok result
  | .error .Interrupt => .error .Interrupt
  | .error .InternalError => .error .InternalError

/-- `Node::get_node_state`: when the NodeId embeds the calling process's own
pid the node is reported `Alive` directly; otherwise a monitor is built and
queried, with builder failures mapped into `NodeListFailure`. -/
def Node.get_node_state (my_pid : Nat) (node_id : NodeId) (mb : MonitoringBackend) :
    Except NodeListFailure State :=
  if my_pid = node_id.pid then .ok .Alive
  else
    match mb.monitorResult with
    | .ok _ => state_from_monitor mb
    | .error .InsufficientPermissions => .error .InsufficientPermissions
    | .error .Interrupt => .error .Interrupt
    | .error .InternalError => .error .InternalError

/-- `NodeState::new`: composes the best-effort details view with the queried
monitoring state; per-node permission and internal failures become the
`Inaccessible` and `Undefined` variants, remaining failures propagate. -/
def NodeState.new (node_id : NodeId) (my_pid : Nat) (mb : MonitoringBackend)
    (db : DetailsBackend) : Except NodeListFailure (Option NodeState) :=
  let details : Option NodeDetails :=
    match get_node_details db with
    | .ok v => v
    | .error _ => none
  let node_view : AliveNodeView := { id := node_id, details := details }
  match Node.get_node_state my_pid node_id mb with
  | .ok .DoesNotExist => .ok none
  | .ok .Alive => .ok (some (.Alive node_view))
  | .ok .Dead => .ok (some (.Dead ⟨node_view⟩))
  | .error .InsufficientPermissions => .ok (some (.Inaccessible node_id))
  | .error .InternalError => .ok (some (.Undefined node_id))
  | .error e => .error e

/-- Oracle for `Node::list`: the monitoring directory listing (already parsed
into NodeIds, as the source does with the u128 filename parse) and the
per-node backends consulted by `NodeState::new`. -/
structure ListBackend where
  listCfgResult : Except NamedConceptListError (List NodeId)
  perNodeMonitoring : NodeId → MonitoringBackend
  perNodeDetails : NodeId → DetailsBackend

/-- `Node::list_all_nodes`: maps the directory-listing outcome into
`NodeListFailure`. -/
def Node.list_all_nodes (lb : ListBackend) : Except NodeListFailure (List NodeId) :=
  match lb.listCfgResult with
  | .ok result => .ok result
  | .error .InsufficientPermissions => .error .InsufficientPermissions
  | .error .InternalError => .error .InternalError

/-- The iteration body of `Node::list`: classifies each listed NodeId,
skipping vanished ones, invoking the callback and honoring `Stop`. -/
def Node.list_loop (my_pid : Nat) (lb : ListBackend)
    (callback : NodeState → CallbackProgression) :
    List NodeId → Except NodeListFailure Unit
  | [] => .ok ()
  | node_id :: rest =>
    match NodeState.new node_id my_pid (lb.perNodeMonitoring node_id)
        (lb.perNodeDetails node_id) with
    | .ok (some node_state) =>
      match callback node_state with
      | .Stop => .ok ()
      | .Continue => Node.list_loop my_pid lb callback rest
    | .ok none => Node.list_loop my_pid lb callback rest
    | .error e => .error e

/-- `Node::list`: lists the monitoring directory and iterates the
classification loop over it. -/
def Node.list (my_pid : Nat) (lb : ListBackend)
    (callback : NodeState → CallbackProgression) : Except NodeListFailure Unit :=
  match Node.list_all_nodes lb with
  | .ok node_list => Node.list_loop my_pid lb callback node_list
  | .error e => .error e

/-- Modelled from the spec: the sleep of `Node::wait` either completes, is
interrupted by a signal (the source's `NanosleepError::InterruptedBySignal(_)`,
carrying the remaining duration), or fails with some other error (the
`NanosleepError` type itself lives outside this module). -/
inductive NanosleepError where
  | InterruptedBySignal (remaining : Nat)
  | OtherFailure
deriving DecidableEq

/-- Oracle for one `Node::wait` call: whether termination was already pending
before the sleep, the sleep outcome, and whether termination became pending
during the sleep. -/
structure WaitEnv where
  termination_requested_before : Bool
  sleep_result : Except NanosleepError Unit
  termination_requested_after : Bool

/-- Outcome of `Node::wait`: a returned event or the fatal panic taken on an
unexpected sleep error. -/
inductive WaitOutcome where
  | event : NodeEvent → WaitOutcome
  | fatalFailure : WaitOutcome
deriving DecidableEq

/-- `Node::wait`: checks the termination flag, sleeps, re-checks the flag on a
clean wake, maps a signal interruption to `InterruptSignal` and panics on any
other sleep error. -/
def Node.wait (env : WaitEnv) : WaitOutcome :=
  if env.termination_requested_before then .event .TerminationRequest
  else
    match env.sleep_result with
    | .ok _ =>
      if env.termination_requested_after then .event .TerminationRequest
      else .event .Tick
    | .error (.InterruptedBySignal _) => .event .InterruptSignal
    | .error .OtherFailure => .fatalFailure

/-- What `Drop for SharedNode` did: nothing (token already taken), a
successful removal, or a removal failure converted to a logged warning. The
source's drop has no panic path, which is why this type has no fatal
alternative. -/
inductive DropAction where
  | no_removal
  | removed
  | warned (e : NodeCleanupFailure)
deriving DecidableEq

/-- `Drop for SharedNode`: when the monitoring token is still present,
invokes `remove_node` and turns any failure into a logged warning; when the
token was taken (test-only staged death), does nothing. -/
def SharedNode.drop (monitoring_token : Option Unit) (id : NodeId)
    (details : NodeDetails) (sb : StaticStorageBackend) : DropAction :=
  if monitoring_token.isSome then
    match remove_node id details sb with
    | .ok _ => .removed
    | .error e => .warned e
  else .no_removal

abbrev ContainerHandle := Nat

/-- Modelled from the spec: the opaque failure of the open callback passed to
`RegisteredServices::add_or` (`OpenDynamicStorageFailure` is declared outside
this module); it is only propagated, never inspected. -/
structure OpenDynamicStorageFailure where
  code : Nat
deriving DecidableEq

/-- The `HashMap<String, (ContainerHandle, u64)>` of `RegisteredServices`,
modelled extensionally. -/
abbrev ServiceMap := String → Option (ContainerHandle × Nat)

def ServiceMap.insertEntry (data : ServiceMap) (uuid : String)
    (v : ContainerHandle × Nat) : ServiceMap :=
  fun k => if k = uuid then some v else data k

def ServiceMap.eraseEntry (data : ServiceMap) (uuid : String) : ServiceMap :=
  fun k => if k = uuid then none else data k

/-- `RegisteredServices::add`: inserts with refcount 1; an already registered
uuid is a fatal panic. -/
def RegisteredServices.add (data : ServiceMap) (uuid : String)
    (handle : ContainerHandle) : ExecResult OpenDynamicStorageFailure ServiceMap :=
  match data uuid with
  | some _ => .fatal
  | none => .ok (data.insertEntry uuid (handle, 1))

/-- `RegisteredServices::add_or`: increments the refcount of a present entry;
for an absent uuid invokes the open callback (whose outcome is the
`or_callback` argument) and on success inserts via `add`, on failure
propagates the error without touching the table. -/
def RegisteredServices.add_or (data : ServiceMap) (uuid : String)
    (or_callback : Except OpenDynamicStorageFailure ContainerHandle) :
    ExecResult OpenDynamicStorageFailure ServiceMap :=
  match data uuid with
  | some (handle, n) => .ok (data.insertEntry uuid (handle, n + 1))
  | none =>
    match or_callback with
    | .ok handle => RegisteredServices.add data uuid handle
    | .error e => .err e

/-- `RegisteredServices::remove`: decrements the refcount; when it reaches
zero invokes the cleanup callback (the returned handle) and erases the entry;
an absent uuid is a fatal panic. -/
def RegisteredServices.remove (data : ServiceMap) (uuid : String) :
    ExecResult OpenDynamicStorageFailure (ServiceMap × Option ContainerHandle) :=
  match data uuid with
  | some (handle, n) =>
    if n - 1 = 0 then .ok (data.eraseEntry uuid, some handle)
    else .ok (data.insertEntry uuid (handle, n - 1), none)
  | none => .fatal

/-- One call against the RegisteredServices table; for `add_or` the outcome
the open callback would produce is carried as data. -/
inductive ServiceOp where
  | add (uuid : String) (handle : ContainerHandle)
  | add_or (uuid : String) (or_callback : Except OpenDynamicStorageFailure ContainerHandle)
  | remove (uuid : String)

/-- Observable events of a run against the table: a successful `add`/`add_or`,
a `remove` call, and an invocation of the cleanup callback with the stored
handle. -/
inductive ServiceEvent where
  | added (uuid : String)
  | removed (uuid : String)
  | cleaned (uuid : String) (handle : ContainerHandle)
deriving DecidableEq

/-- Runs a sequence of table calls, threading the map and collecting the
emitted events; a fatal panic (add on present, remove on absent) aborts the
run with `none`. A failed `add_or` returns its error to that caller and the
run continues with the table unchanged. -/
def runServices (data : ServiceMap) : List ServiceOp → Option (ServiceMap × List ServiceEvent)
  | [] => some (data, [])
  | .add uuid handle :: rest =>
    match RegisteredServices.add data uuid handle with
    | .ok next =>
      match runServices next rest with
      | some r => some (r.1, .added uuid :: r.2)
      | none => none
    | .err _ => none
    | .fatal => none
  | .add_or uuid or_callback :: rest =>
    match RegisteredServices.add_or data uuid or_callback with
    | .ok next =>
      match runServices next rest with
      | some r => some (r.1, .added uuid :: r.2)
      | none => none
    | .err _ => runServices data rest
    | .fatal => none
  | .remove uuid :: rest =>
    match RegisteredServices.remove data uuid with
    | .ok (next, some handle) =>
      match runServices next rest with
      | some r => some (r.1, .cleaned uuid handle :: .removed uuid :: r.2)
      | none => none
    | .ok (next, none) =>
      match runServices next rest with
      | some r => some (r.1, .removed uuid :: r.2)
      | none => none
    | .err _ => none
    | .fatal => none

def countAdded (u : String) : List ServiceEvent → Nat
  | [] => 0
  | .added u2 :: rest => (if u2 = u then 1 else 0) + countAdded u rest
  | _ :: rest => countAdded u rest

def countRemoved (u : String) : List ServiceEvent → Nat
  | [] => 0
  | .removed u2 :: rest => (if u2 = u then 1 else 0) + countRemoved u rest
  | _ :: rest => countRemoved u rest

def countCleaned (u : String) : List ServiceEvent → Nat
  | [] => 0
  | .cleaned u2 _ :: rest => (if u2 = u then 1 else 0) + countCleaned u rest
  | _ :: rest => countCleaned u rest

def refcountOf : Option (ContainerHandle × Nat) → Nat
  | none => 0
  | some (_, n) => n

def callbackOk {ε α : Type} : Except ε α → Bool
  | .ok _ => true
  | .error _ => false

/-- Spec-side count, following the claim's words: the number of `remove` calls
for `u` that bring the running add-minus-remove difference to zero, starting
from difference `diff`; an `add_or` counts as a successful add when the entry
is present (difference nonzero) or its callback succeeds. -/
def closingRemoves (u : String) (diff : Nat) : List ServiceOp → Nat
  | [] => 0
  | .add u2 _ :: rest =>
    closingRemoves u (if u2 = u then diff + 1 else diff) rest
  | .add_or u2 or_callback :: rest =>
    closingRemoves u
      (if u2 = u ∧ (diff ≠ 0 ∨ callbackOk or_callback) then diff + 1 else diff) rest
  | .remove u2 :: rest =>
    if u2 = u then
      (if diff = 1 then closingRemoves u 0 rest + 1 else closingRemoves u (diff - 1) rest)
    else closingRemoves u diff rest

/-- State of the cleaner lock of one dead node (modelled from the spec: a
host-exclusive lock on a dead name; once cleanup completes the corpse is
reaped and later acquisitions see `DoesNotExist`). -/
inductive CorpseState where
  | dead
  | held
  | reaped
deriving DecidableEq

/-- One atomic step of an interleaved cleanup execution: some caller attempts
to acquire the cleaner, or the current holder releases it after reaping. -/
inductive CleanupEvent where
  | acquire (caller : Nat)
  | release
deriving DecidableEq

def cleanerNext (s : CorpseState) (e : CleanupEvent) : CorpseState :=
  match s, e with
  | .dead, .acquire _ => .held
  | .held, .release => .reaped
  | s2, _ => s2

/-- The acquisition outcome the backend grants in a given lock state. -/
def cleanerGrant (s : CorpseState) : Except MonitoringCreateCleanerError Unit :=
  match s with
  | .dead => .ok ()
  | .held => .error .AlreadyOwnedByAnotherInstance
  | .reaped => .error .DoesNotExist

/-- Replays an interleaving, recording which caller was granted what at each
acquisition attempt. -/
def cleanerGrants (s : CorpseState) : List CleanupEvent → List (Nat × Except MonitoringCreateCleanerError Unit)
  | [] => []
  | .acquire i :: rest => (i, cleanerGrant s) :: cleanerGrants (cleanerNext s (.acquire i)) rest
  | .release :: rest => cleanerGrants (cleanerNext s .release) rest

/-- The acquisition outcome caller `i` observed in the interleaving (its first
attempt); a caller that never reached acquisition observes `DoesNotExist`. -/
def grantOf (trace : List CleanupEvent) (i : Nat) :
    Except MonitoringCreateCleanerError Unit :=
  match (cleanerGrants .dead trace).find? (fun p => p.1 == i) with
  | some p => p.2
  | none => .error .DoesNotExist

/-- The best-effort details composition of `NodeState::new`: the
`get_node_details` result with any read failure suppressed to `None`. -/
def suppressed_node_details (db : DetailsBackend) : Option NodeDetails :=
  match get_node_details db with
  | .ok v => v
  | .error _ => none

/-- An entry is present only with a positive refcount. -/
def GoodMap (data : ServiceMap) : Prop :=
  ∀ u h n, data u = some (h, n) → 1 ≤ n

def exId : NodeId := ⟨⟨1, 0⟩⟩

def exDetails : NodeDetails := ⟨"example", ⟨0⟩⟩

def exView : DeadNodeView := ⟨⟨exId, some exDetails⟩⟩

def exSb : StaticStorageBackend := ⟨.ok [], fun _ => .ok (), .ok ()⟩

def exSbInternal : StaticStorageBackend :=
  ⟨.ok ["detail"], fun _ => .error .InternalError, .ok ()⟩

def exMbInterrupt : MonitoringBackend := ⟨.error .Interrupt, .ok (), .ok .Alive⟩

def exMbDead : MonitoringBackend := ⟨.ok (), .ok (), .ok .Dead⟩

def exMbStateInterrupt : MonitoringBackend := ⟨.ok (), .ok (), .error .Interrupt⟩

def exDb : DetailsBackend := ⟨.error .DoesNotExist, .ok (), .ok exDetails⟩

def exOps : List ServiceOp :=
  [.add "a" 5, .add_or "a" (.ok 7), .remove "a", .remove "a", .add "a" 9]

def exTrace : List CleanupEvent := [.acquire 0, .release, .acquire 1]

def exMbs : Nat → MonitoringBackend := fun i => ⟨grantOf exTrace i, .ok (), .ok .Dead⟩

def exViews : Nat → DeadNodeView := fun _ => exView

def exSbs : Nat → StaticStorageBackend := fun _ => exSb

def exListBackend : ListBackend :=
  ⟨.ok [exId], fun _ => exMbStateInterrupt, fun _ => exDb⟩

theorem remove_node_ok_true (id : NodeId) (details : NodeDetails)
    (sb : StaticStorageBackend) (r : Bool) (h : remove_node id details sb = .ok r) :
    r = true := by
  unfold remove_node at h
  split at h
  · simp at h
  · split at h
    · simp at h
    · split at h
      · simp at h
      · injection h with h2
        exact h2.symm

theorem after_acquire_result_ne_ok_false (v : DeadNodeView) (sb : StaticStorageBackend) :
    (match v.details with
      | some details => execOfExcept (remove_node v.id details sb)
      | none => (.ok true : ExecResult NodeCleanupFailure Bool)) ≠ .ok false := by
  rcases hd : v.details with _ | details
  · simp [hd]
  · simp only [hd]
    rcases hr : remove_node v.id details sb with e | b
    · simp [execOfExcept, hr]
    · have hb := remove_node_ok_true v.id details sb b hr
      subst hb
      simp [execOfExcept, hr]

/-- C1: the result of `DeadNodeView::remove_stale_resources` is determined by
the cleaner acquisition outcome: `Ok(false)` exactly on
`AlreadyOwnedByAnotherInstance` or `DoesNotExist`; `Interrupt` and
`InternalError` acquisition failures map to the equally named
`NodeCleanupFailure`s; and when the cleaner is acquired the call proceeds to
the removal (so `Ok(false)` arises in no other case). -/
theorem remove_stale_resources_acquisition_cases (v : DeadNodeView)
    (mb : MonitoringBackend) (sb : StaticStorageBackend) :
    (DeadNodeView.remove_stale_resources v mb sb = .ok false ↔
      mb.cleanerResult = .error .AlreadyOwnedByAnotherInstance ∨
      mb.cleanerResult = .error .DoesNotExist)
    ∧ (mb.cleanerResult = .error .Interrupt →
      DeadNodeView.remove_stale_resources v mb sb = .err .Interrupt)
    ∧ (mb.cleanerResult = .error .InternalError →
      DeadNodeView.remove_stale_resources v mb sb = .err .InternalError)
    ∧ (∀ u, mb.cleanerResult = .ok u →
      DeadNodeView.remove_stale_resources v mb sb =
        match v.details with
        | some details => execOfExcept (remove_node v.id details sb)
        | none => .ok true) := by
  rcases hc : mb.cleanerResult with e | u
  · cases e <;> simp [DeadNodeView.remove_stale_resources, hc]
  · have hne := after_acquire_result_ne_ok_false v sb
    simp [DeadNodeView.remove_stale_resources, hc, hne]

/-- C1 witness: an acquisition interrupted by a signal yields
`NodeCleanupFailure::Interrupt`. -/
theorem remove_stale_resources_acquisition_cases_witness :
    DeadNodeView.remove_stale_resources exView exMbInterrupt exSb = .err .Interrupt :=
  (remove_stale_resources_acquisition_cases exView exMbInterrupt exSb).2.1 rfl

/-- C2 (code bug): a `NamedConceptRemoveError::InternalError` from removing an
individual detail storage is reported by the code as
`NodeCleanupFailure::InsufficientPermissions`, although its own log message
says the failure is internal; the claim (and the spec's classification rule)
expects `InternalError`. -/
theorem remove_detail_storages_internal_error_reported_as_permissions :
    remove_detail_storages "origin" ["detail"] exSbInternal =
      .error .InsufficientPermissions := rfl

/-- C6: for a NodeId embedding the calling process's pid, `get_node_state`
returns `Alive` for every monitoring backend (so no monitor is constructed
and the backend is not consulted); only with a foreign pid does the result
follow the monitor path. -/
theorem get_node_state_own_process (my_pid : Nat) (node_id : NodeId) :
    (my_pid = node_id.pid →
      ∀ mb : MonitoringBackend, Node.get_node_state my_pid node_id mb = .ok .Alive)
    ∧ (my_pid ≠ node_id.pid →
      ∀ mb : MonitoringBackend, Node.get_node_state my_pid node_id mb =
        match mb.monitorResult with
        | .ok _ => state_from_monitor mb
        | .error .InsufficientPermissions => .error .InsufficientPermissions
        | .error .Interrupt => .error .Interrupt
        | .error .InternalError => .error .InternalError) := by
  constructor
  · intro h mb
    simp [Node.get_node_state, h]
  · intro h mb
    simp [Node.get_node_state, h]

/-- C6 witness: the own-process shortcut returns `Alive` even against a
backend whose state query would fail with an interrupt. -/
theorem get_node_state_own_process_witness :
    Node.get_node_state 1 exId exMbStateInterrupt = .ok .Alive :=
  (get_node_state_own_process 1 exId).1 rfl exMbStateInterrupt

/-- C5: `Node::wait` returns `TerminationRequest` immediately when termination
is already pending (for every sleep outcome, i.e. without depending on the
sleep); otherwise a clean wake yields `TerminationRequest` or `Tick` according
to the flag, a signal-interrupted sleep yields `InterruptSignal`, and any
other sleep error is fatal. -/
theorem node_wait_behavior (env : WaitEnv) :
    (env.termination_requested_before = true →
      Node.wait env = .event .TerminationRequest)
    ∧ (env.termination_requested_before = false →
      ((env.sleep_result = .ok () →
          Node.wait env =
            .event (if env.termination_requested_after then .TerminationRequest else .Tick))
        ∧ (∀ r, env.sleep_result = .error (.InterruptedBySignal r) →
          Node.wait env = .event .InterruptSignal)
        ∧ (env.sleep_result = .error .OtherFailure → Node.wait env = .fatalFailure))) := by
  refine ⟨fun h => by simp [Node.wait, h],
    fun h => ⟨fun hs => ?_, fun r hs => by simp [Node.wait, h, hs], fun hs => by simp [Node.wait, h, hs]⟩⟩
  cases hta : env.termination_requested_after <;> simp [Node.wait, h, hs, hta]

/-- C5 witness: with no pending termination and a clean sleep, `wait` ticks. -/
theorem node_wait_behavior_witness :
    Node.wait ⟨false, .ok (), false⟩ = .event .Tick := by
  have h := ((node_wait_behavior ⟨false, .ok (), false⟩).2 rfl).1 rfl
  exact h.trans rfl

/-- C7: dropping the last `SharedNode` handle attempts `remove_node` exactly
when the monitoring token is still present, converting a failure into a
logged warning (the `DropAction` type has no panic alternative because the
drop glue has no panic path); with the token taken, nothing is attempted. -/
theorem shared_node_drop_removal (token : Option Unit) (id : NodeId)
    (details : NodeDetails) (sb : StaticStorageBackend) :
    (token = none → SharedNode.drop token id details sb = .no_removal)
    ∧ (∀ t, token = some t →
      SharedNode.drop token id details sb =
        match remove_node id details sb with
        | .ok _ => .removed
        | .error e => .warned e) := by
  constructor
  · intro h
    subst h
    simp [SharedNode.drop]
  · intro t h
    subst h
    simp [SharedNode.drop]

/-- C7 witness: with the token present and a cooperative backend the drop
removes the node's resources. -/
theorem shared_node_drop_removal_witness :
    SharedNode.drop (some ()) exId exDetails exSb = .removed := by
  have h := (shared_node_drop_removal (some ()) exId exDetails exSb).2 () rfl
  exact h.trans rfl

/-- C10: `add_or` on an absent uuid with a failing open callback propagates
the error and leaves the table unchanged (literally the same map, so no entry
for the uuid and no other refcount changes); only a successful callback
inserts the entry with refcount 1. -/
theorem add_or_error_leaves_table_unchanged (data : ServiceMap) (uuid : String)
    (e : OpenDynamicStorageFailure) (hab : data uuid = none) :
    RegisteredServices.add_or data uuid (.error e) = .err e
    ∧ (∀ handle, RegisteredServices.add_or data uuid (.ok handle) =
        .ok (data.insertEntry uuid (handle, 1)))
    ∧ runServices data [.add_or uuid (.error e)] = some (data, []) := by
  refine ⟨?_, fun handle => ?_, ?_⟩ <;>
    simp [RegisteredServices.add_or, RegisteredServices.add, hab, runServices]

/-- C10 witness: a failing open on the empty table propagates the error and
keeps the table empty. -/
theorem add_or_error_leaves_table_unchanged_witness :
    RegisteredServices.add_or (fun _ => none) "s" (.error ⟨3⟩) = .err ⟨3⟩
    ∧ runServices (fun _ => none) [.add_or "s" (.error ⟨3⟩)] =
        some ((fun _ => none), []) := by
  have h := add_or_error_leaves_table_unchanged (fun _ => none) "s" ⟨3⟩ rfl
  exact ⟨h.1, h.2.2⟩

/-- C3: `NodeState::new` composes the best-effort details view with the
monitoring state: `DoesNotExist` is a benign vanished node, `Alive` and
`Dead` carry the view, a permission failure of the state query becomes
`Inaccessible`, an internal failure becomes `Undefined`, and the remaining
failure (`Interrupt`) propagates. -/
theorem nodeState_new_classification (node_id : NodeId) (my_pid : Nat)
    (mb : MonitoringBackend) (db : DetailsBackend) :
    NodeState.new node_id my_pid mb db =
      match Node.get_node_state my_pid node_id mb with
      | .ok .DoesNotExist => .ok none
      | .ok .Alive => .ok (some (.Alive ⟨node_id, suppressed_node_details db⟩))
      | .ok .Dead => .ok (some (.Dead ⟨⟨node_id, suppressed_node_details db⟩⟩))
      | .error .InsufficientPermissions => .ok (some (.Inaccessible node_id))
      | .error .InternalError => .ok (some (.Undefined node_id))
      | .error .Interrupt => .error .Interrupt := by
  rcases hs : Node.get_node_state my_pid node_id mb with e | s
  · cases e <;> simp [NodeState.new, suppressed_node_details, hs]
  · cases s <;> simp [NodeState.new, suppressed_node_details, hs]

/-- C3 witness: a dead foreign node with unreadable details is classified
`Dead` with the details suppressed to `None`. -/
theorem nodeState_new_classification_witness :
    NodeState.new exId 0 exMbDead exDb = .ok (some (.Dead ⟨⟨exId, none⟩⟩)) :=
  (nodeState_new_classification exId 0 exMbDead exDb).trans rfl

theorem nodeState_new_error_is_interrupt (node_id : NodeId) (my_pid : Nat)
    (mb : MonitoringBackend) (db : DetailsBackend) (e : NodeListFailure)
    (h : NodeState.new node_id my_pid mb db = .error e) : e = .Interrupt := by
  rcases hs : Node.get_node_state my_pid node_id mb with e2 | s
  · cases e2 <;> simp_all [NodeState.new, hs]
  · cases s <;> simp_all [NodeState.new, hs]

theorem list_loop_error_is_interrupt (my_pid : Nat) (lb : ListBackend)
    (callback : NodeState → CallbackProgression) (ids : List NodeId)
    (e : NodeListFailure) (h : Node.list_loop my_pid lb callback ids = .error e) :
    e = .Interrupt := by
  induction ids with
  | nil => simp [Node.list_loop] at h
  | cons node_id rest ih =>
    rw [Node.list_loop] at h
    rcases hs : NodeState.new node_id my_pid (lb.perNodeMonitoring node_id)
        (lb.perNodeDetails node_id) with e2 | os <;> simp only [hs] at h
    · injection h with h3
      subst h3
      exact nodeState_new_error_is_interrupt _ _ _ _ _ hs
    · rcases os with _ | st
      · exact ih h
      · rcases hcb : callback st <;> simp only [hcb] at h
        · exact ih h
        · simp at h

/-- C9: the only error `NodeState::new` can return is
`NodeListFailure::Interrupt` (permission and internal failures of the state
query become `Inaccessible` and `Undefined`, details-read failures are
swallowed); consequently `Node::list` yields `InsufficientPermissions` or
`InternalError` only when listing the monitoring directory itself fails that
way, never while classifying an individual node. -/
theorem node_list_errors_from_directory_only :
    (∀ (node_id : NodeId) (my_pid : Nat) (mb : MonitoringBackend)
        (db : DetailsBackend) (e : NodeListFailure),
      NodeState.new node_id my_pid mb db = .error e → e = .Interrupt)
    ∧ (∀ (my_pid : Nat) (lb : ListBackend)
        (callback : NodeState → CallbackProgression) (e : NodeListFailure),
      Node.list my_pid lb callback = .error e → e ≠ .Interrupt →
        lb.listCfgResult = .error (match e with
          | .InsufficientPermissions => .InsufficientPermissions
          | _ => .InternalError)) := by
  refine ⟨nodeState_new_error_is_interrupt, ?_⟩
  intro my_pid lb callback e h hne
  rw [Node.list] at h
  rcases hl : Node.list_all_nodes lb with e2 | ids <;> simp only [hl] at h
  · injection h with h3
    subst h3
    rw [Node.list_all_nodes] at hl
    rcases hcfg : lb.listCfgResult with e3 | v <;> simp only [hcfg] at hl
    · cases e3
      · injection hl with h4
        subst h4
        simp [hcfg]
      · injection hl with h4
        subst h4
        simp [hcfg]
    · simp at hl
  · exact absurd (list_loop_error_is_interrupt my_pid lb callback ids e h) hne

/-- C9 witness: a state query interrupted by a signal is the propagated error,
and a permission failure of `Node::list` comes from the directory listing. -/
theorem node_list_errors_from_directory_only_witness :
    NodeState.new exId 0 exMbStateInterrupt exDb = .error .Interrupt
    ∧ NodeListFailure.Interrupt = NodeListFailure.Interrupt :=
  ⟨rfl, node_list_errors_from_directory_only.1 exId 0 exMbStateInterrupt exDb _ rfl⟩

theorem goodMap_insert {data : ServiceMap} (hgood : GoodMap data) (uuid : String)
    (h2 : ContainerHandle) (n2 : Nat) (hn : 1 ≤ n2) :
    GoodMap (data.insertEntry uuid (h2, n2)) := by
  intro u h n hu
  simp only [ServiceMap.insertEntry] at hu
  by_cases he : u = uuid
  · simp only [he, if_pos rfl, Option.some.injEq, Prod.mk.injEq] at hu
    obtain ⟨h3, h4⟩ := hu
    omega
  · simp only [if_neg he] at hu
    exact hgood u h n hu

theorem goodMap_erase {data : ServiceMap} (hgood : GoodMap data) (uuid : String) :
    GoodMap (data.eraseEntry uuid) := by
  intro u h n hu
  simp only [ServiceMap.eraseEntry] at hu
  by_cases he : u = uuid
  · simp [he] at hu
  · simp only [if_neg he] at hu
    exact hgood u h n hu

theorem runServices_invariant (ops : List ServiceOp) :
    ∀ data : ServiceMap, GoodMap data →
    ∀ d log, runServices data ops = some (d, log) →
    GoodMap d ∧
    ∀ u, (refcountOf (d u) + countRemoved u log = refcountOf (data u) + countAdded u log)
      ∧ countCleaned u log = closingRemoves u (refcountOf (data u)) ops := by
  induction ops with
  | nil =>
    intro data hgood d log hrun
    simp only [runServices, Option.some.injEq, Prod.mk.injEq] at hrun
    obtain ⟨h1, h2⟩ := hrun
    subst h1
    subst h2
    exact ⟨hgood, fun u => by simp [countRemoved, countAdded, countCleaned, closingRemoves]⟩
  | cons op rest ih =>
    intro data hgood d log hrun
    cases op with
    | add uuid handle =>
      rw [runServices] at hrun
      rcases hmem : data uuid with _ | p
      · simp only [RegisteredServices.add, hmem] at hrun
        rcases hrec : runServices (data.insertEntry uuid (handle, 1)) rest
          with _ | ⟨d2, log2⟩ <;> simp [hrec] at hrun
        obtain ⟨hd, hlog⟩ := hrun
        subst hd
        subst hlog
        have hgood2 := goodMap_insert hgood uuid handle 1 le_rfl
        obtain ⟨hgd, hmain⟩ := ih _ hgood2 d2 log2 hrec
        refine ⟨hgd, fun u => ?_⟩
        obtain ⟨ha, hc⟩ := hmain u
        by_cases hu : u = uuid
        · subst hu
          have he : data.insertEntry u (handle, 1) u = some (handle, 1) := by
            simp [ServiceMap.insertEntry]
          rw [he] at ha hc
          constructor
          · simp [countRemoved, countAdded, refcountOf, hmem] at ha ⊢
            omega
          · simp [countCleaned, closingRemoves, refcountOf, hmem] at hc ⊢
            omega
        · have he : data.insertEntry uuid (handle, 1) u = data u := by
            simp [ServiceMap.insertEntry, hu]
          rw [he] at ha hc
          have hun : uuid ≠ u := fun h => hu h.symm
          constructor
          · simpa [countRemoved, countAdded, hun] using ha
          · simpa [countCleaned, closingRemoves, hun] using hc
      · simp [RegisteredServices.add, hmem] at hrun
    | add_or uuid or_callback =>
      rw [runServices] at hrun
      rcases hmem : data uuid with _ | ⟨h0, n0⟩
      · rcases or_callback with e1 | h1
        · simp only [RegisteredServices.add_or, hmem] at hrun
          obtain ⟨hgd, hmain⟩ := ih data hgood d log hrun
          refine ⟨hgd, fun u => ?_⟩
          obtain ⟨ha, hc⟩ := hmain u
          refine ⟨ha, ?_⟩
          by_cases hu : u = uuid
          · subst hu
            simp [countCleaned, closingRemoves, refcountOf, hmem, callbackOk] at hc ⊢
            omega
          · have hun : uuid ≠ u := fun h => hu h.symm
            simpa [countCleaned, closingRemoves, hun] using hc
        · simp only [RegisteredServices.add_or, RegisteredServices.add, hmem] at hrun
          rcases hrec : runServices (data.insertEntry uuid (h1, 1)) rest
            with _ | ⟨d2, log2⟩ <;> simp [hrec] at hrun
          obtain ⟨hd, hlog⟩ := hrun
          subst hd
          subst hlog
          have hgood2 := goodMap_insert hgood uuid h1 1 le_rfl
          obtain ⟨hgd, hmain⟩ := ih _ hgood2 d2 log2 hrec
          refine ⟨hgd, fun u => ?_⟩
          obtain ⟨ha, hc⟩ := hmain u
          by_cases hu : u = uuid
          · subst hu
            have he : data.insertEntry u (h1, 1) u = some (h1, 1) := by
              simp [ServiceMap.insertEntry]
            rw [he] at ha hc
            constructor
            · simp [countRemoved, countAdded, refcountOf, hmem] at ha ⊢
              omega
            · simp [countCleaned, closingRemoves, refcountOf, hmem, callbackOk] at hc ⊢
              omega
          · have he : data.insertEntry uuid (h1, 1) u = data u := by
              simp [ServiceMap.insertEntry, hu]
            rw [he] at ha hc
            have hun : uuid ≠ u := fun h => hu h.symm
            constructor
            · simpa [countRemoved, countAdded, hun] using ha
            · simpa [countCleaned, closingRemoves, hun] using hc
      · simp only [RegisteredServices.add_or, hmem] at hrun
        rcases hrec : runServices (data.insertEntry uuid (h0, n0 + 1)) rest
          with _ | ⟨d2, log2⟩ <;> simp [hrec] at hrun
        obtain ⟨hd, hlog⟩ := hrun
        subst hd
        subst hlog
        have hn0 : 1 ≤ n0 := hgood uuid h0 n0 hmem
        have hgood2 := goodMap_insert hgood uuid h0 (n0 + 1) (by omega)
        obtain ⟨hgd, hmain⟩ := ih _ hgood2 d2 log2 hrec
        refine ⟨hgd, fun u => ?_⟩
        obtain ⟨ha, hc⟩ := hmain u
        by_cases hu : u = uuid
        · subst hu
          have he : data.insertEntry u (h0, n0 + 1) u = some (h0, n0 + 1) := by
            simp [ServiceMap.insertEntry]
          rw [he] at ha hc
          have hne : n0 ≠ 0 := by omega
          constructor
          · simp [countRemoved, countAdded, refcountOf, hmem] at ha ⊢
            omega
          · simp [countCleaned, closingRemoves, refcountOf, hmem, hne] at hc ⊢
            omega
        · have he : data.insertEntry uuid (h0, n0 + 1) u = data u := by
            simp [ServiceMap.insertEntry, hu]
          rw [he] at ha hc
          have hun : uuid ≠ u := fun h => hu h.symm
          constructor
          · simpa [countRemoved, countAdded, hun] using ha
          · simpa [countCleaned, closingRemoves, hun] using hc
    | remove uuid =>
      rw [runServices] at hrun
      rcases hmem : data uuid with _ | ⟨h0, n0⟩
      · simp [RegisteredServices.remove, hmem] at hrun
      · have hn0 : 1 ≤ n0 := hgood uuid h0 n0 hmem
        simp only [RegisteredServices.remove, hmem] at hrun
        by_cases hone : n0 - 1 = 0
        · rw [if_pos hone] at hrun
          have hn1 : n0 = 1 := by omega
          subst hn1
          rcases hrec : runServices (data.eraseEntry uuid) rest
            with _ | ⟨d2, log2⟩ <;> simp [hrec] at hrun
          obtain ⟨hd, hlog⟩ := hrun
          subst hd
          subst hlog
          have hgood2 := goodMap_erase hgood uuid
          obtain ⟨hgd, hmain⟩ := ih _ hgood2 d2 log2 hrec
          refine ⟨hgd, fun u => ?_⟩
          obtain ⟨ha, hc⟩ := hmain u
          by_cases hu : u = uuid
          · subst hu
            have he : data.eraseEntry u u = none := by simp [ServiceMap.eraseEntry]
            rw [he] at ha hc
            constructor
            · simp [countRemoved, countAdded, refcountOf, hmem] at ha ⊢
              omega
            · simp [countCleaned, closingRemoves, refcountOf, hmem] at hc ⊢
              omega
          · have he : data.eraseEntry uuid u = data u := by
              simp [ServiceMap.eraseEntry, hu]
            rw [he] at ha hc
            have hun : uuid ≠ u := fun h => hu h.symm
            constructor
            · simpa [countRemoved, countAdded, hun] using ha
            · simpa [countCleaned, closingRemoves, hun] using hc
        · rw [if_neg hone] at hrun
          rcases hrec : runServices (data.insertEntry uuid (h0, n0 - 1)) rest
            with _ | ⟨d2, log2⟩ <;> simp [hrec] at hrun
          obtain ⟨hd, hlog⟩ := hrun
          subst hd
          subst hlog
          have hgood2 := goodMap_insert hgood uuid h0 (n0 - 1) (by omega)
          obtain ⟨hgd, hmain⟩ := ih _ hgood2 d2 log2 hrec
          refine ⟨hgd, fun u => ?_⟩
          obtain ⟨ha, hc⟩ := hmain u
          by_cases hu : u = uuid
          · subst hu
            have he : data.insertEntry u (h0, n0 - 1) u = some (h0, n0 - 1) := by
              simp [ServiceMap.insertEntry]
            rw [he] at ha hc
            have hne1 : n0 ≠ 1 := by omega
            constructor
            · simp [countRemoved, countAdded, refcountOf, hmem] at ha ⊢
              omega
            · simp [countCleaned, closingRemoves, refcountOf, hmem, hne1] at hc ⊢
              omega
          · have he : data.insertEntry uuid (h0, n0 - 1) u = data u := by
              simp [ServiceMap.insertEntry, hu]
            rw [he] at ha hc
            have hun : uuid ≠ u := fun h => hu h.symm
            constructor
            · simpa [countRemoved, countAdded, hun] using ha
            · simpa [countCleaned, closingRemoves, hun] using hc

/-- C4: running any sequence of table calls from the empty table in which
`add` is only called on absent uuids and `remove` only on present ones (the
runs on which `runServices` does not hit a fatal panic), every uuid is
present iff its successful add count differs from its remove count, its
refcount equals that difference and is at least 1, and the cleanup callback
fires exactly at the removes that bring the difference to zero. -/
theorem registered_services_refcount_invariant (ops : List ServiceOp)
    (d : ServiceMap) (log : List ServiceEvent)
    (hrun : runServices (fun _ => none) ops = some (d, log)) (u : String) :
    (d u ≠ none ↔ countAdded u log ≠ countRemoved u log)
    ∧ (∀ h n, d u = some (h, n) → countAdded u log = countRemoved u log + n ∧ 1 ≤ n)
    ∧ countCleaned u log = closingRemoves u 0 ops := by
  have hbase : GoodMap (fun _ => none) := by
    intro u2 h2 n2 hu2
    simp at hu2
  obtain ⟨hgd, hmain⟩ := runServices_invariant ops _ hbase d log hrun
  obtain ⟨ha, hc⟩ := hmain u
  simp [refcountOf] at ha hc
  refine ⟨?_, ?_, hc⟩
  · rcases hd2 : d u with _ | ⟨h, n⟩
    · simp only [hd2, refcountOf] at ha
      simp [hd2]
      omega
    · have hn := hgd u h n hd2
      simp only [hd2, refcountOf] at ha
      simp [hd2]
      omega
  · intro h n hd2
    have hn := hgd u h n hd2
    simp only [hd2, refcountOf] at ha
    exact ⟨by omega, hn⟩

/-- C4 witness: a concrete run (add, shared re-open, two closes, re-add)
satisfies the presence, refcount and single-cleanup properties. -/
theorem registered_services_refcount_invariant_witness :
    ∃ r : ServiceMap × List ServiceEvent,
      runServices (fun _ => none) exOps = some r ∧
      ((r.1 "a" ≠ none ↔ countAdded "a" r.2 ≠ countRemoved "a" r.2)
        ∧ (∀ h n, r.1 "a" = some (h, n) →
            countAdded "a" r.2 = countRemoved "a" r.2 + n ∧ 1 ≤ n)
        ∧ countCleaned "a" r.2 = closingRemoves "a" 0 exOps) := by
  exact ⟨_, rfl, registered_services_refcount_invariant exOps _ _ rfl "a"⟩

theorem cleanerNext_ne_dead (s : CorpseState) (e : CleanupEvent) (h : s ≠ .dead) :
    cleanerNext s e ≠ .dead := by
  cases s with
  | dead => exact absurd rfl h
  | held => cases e <;> simp [cleanerNext]
  | reaped => cases e <;> simp [cleanerNext]

theorem cleanerGrants_no_ok (trace : List CleanupEvent) :
    ∀ s, s ≠ .dead → ∀ p ∈ cleanerGrants s trace, p.2 ≠ Except.ok () := by
  induction trace with
  | nil =>
    intro s hs p hp
    simp [cleanerGrants] at hp
  | cons e rest ih =>
    intro s hs p hp
    cases e with
    | acquire i =>
      simp only [cleanerGrants] at hp
      rcases List.mem_cons.mp hp with h1 | h1
      · subst h1
        cases s with
        | dead => exact absurd rfl hs
        | held => simp [cleanerGrant]
        | reaped => simp [cleanerGrant]
      · exact ih _ (cleanerNext_ne_dead s _ hs) p h1
    | release =>
      simp only [cleanerGrants] at hp
      exact ih _ (cleanerNext_ne_dead s _ hs) p hp

theorem cleanerGrants_ok_unique (trace : List CleanupEvent) :
    ∀ p q, p ∈ cleanerGrants .dead trace → q ∈ cleanerGrants .dead trace →
      p.2 = Except.ok () → q.2 = Except.ok () → p = q := by
  induction trace with
  | nil =>
    intro p q hp
    simp [cleanerGrants] at hp
  | cons e rest ih =>
    intro p q hp hq hpo hqo
    cases e with
    | acquire i =>
      simp only [cleanerGrants, cleanerGrant, cleanerNext] at hp hq
      rcases List.mem_cons.mp hp with h1 | h1
      · rcases List.mem_cons.mp hq with h2 | h2
        · rw [h1, h2]
        · exact absurd hqo (cleanerGrants_no_ok rest .held (by simp) q h2)
      · exact absurd hpo (cleanerGrants_no_ok rest .held (by simp) p h1)
    | release =>
      simp only [cleanerGrants, cleanerNext] at hp hq
      exact ih p q hp hq hpo hqo

theorem grantOf_ok_unique (trace : List CleanupEvent) (i j : Nat)
    (hi : grantOf trace i = Except.ok ()) (hj : grantOf trace j = Except.ok ()) :
    i = j := by
  unfold grantOf at hi hj
  rcases hfi : (cleanerGrants .dead trace).find? (fun p => p.1 == i)
    with _ | pi <;> simp [hfi] at hi
  rcases hfj : (cleanerGrants .dead trace).find? (fun p => p.1 == j)
    with _ | pj <;> simp [hfj] at hj
  have hmi := List.mem_of_find?_eq_some hfi
  have hpi := List.find?_some hfi
  have hmj := List.mem_of_find?_eq_some hfj
  have hpj := List.find?_some hfj
  have hpq := cleanerGrants_ok_unique trace pi pj hmi hmj hi hj
  have h1 : pi.1 = i := by simpa using hpi
  have h2 : pj.1 = j := by simpa using hpj
  rw [← h1, ← h2, hpq]

theorem remove_stale_ok_true_acquired (v : DeadNodeView) (mb : MonitoringBackend)
    (sb : StaticStorageBackend)
    (h : DeadNodeView.remove_stale_resources v mb sb = .ok true) :
    mb.cleanerResult = Except.ok () := by
  rcases hc : mb.cleanerResult with e | u
  · cases e <;> simp [DeadNodeView.remove_stale_resources, hc] at h
  · cases u
    rfl

theorem length_le_one_of_nodup_allEq (l : List Nat) (hnd : l.Nodup)
    (hall : ∀ a ∈ l, ∀ b ∈ l, a = b) : l.length ≤ 1 := by
  match l with
  | [] => simp
  | [a] => simp
  | a :: b :: t =>
    have hab : a = b := hall a (by simp) b (by simp)
    rw [List.nodup_cons] at hnd
    exact absurd (by simp [hab]) hnd.1

/-- C8: over any interleaved execution of concurrent cleanup attempts on the
same dead node (the cleaner being the host-exclusive lock modelled by
`cleanerGrants`), callers whose acquisition outcome is the one the trace
granted them return `Ok(true)` at most once altogether: only a successful
acquisition can yield `Ok(true)`, and the trace grants at most one. -/
theorem concurrent_cleanup_at_most_one_ok_true (trace : List CleanupEvent) (n : Nat)
    (views : Nat → DeadNodeView) (mbs : Nat → MonitoringBackend)
    (sbs : Nat → StaticStorageBackend)
    (hmb : ∀ i, (mbs i).cleanerResult = grantOf trace i) :
    ((List.range n).filter (fun i =>
      decide (DeadNodeView.remove_stale_resources (views i) (mbs i) (sbs i) =
        ExecResult.ok true))).length ≤ 1 := by
  apply length_le_one_of_nodup_allEq
  · exact List.Nodup.filter _ (List.nodup_range n)
  · intro a ha b hb
    rw [List.mem_filter] at ha hb
    have ha2 : DeadNodeView.remove_stale_resources (views a) (mbs a) (sbs a) =
        ExecResult.ok true := by simpa using ha.2
    have hb2 : DeadNodeView.remove_stale_resources (views b) (mbs b) (sbs b) =
        ExecResult.ok true := by simpa using hb.2
    have hga : grantOf trace a = Except.ok () := by
      rw [← hmb a]
      exact remove_stale_ok_true_acquired _ _ _ ha2
    have hgb : grantOf trace b = Except.ok () := by
      rw [← hmb b]
      exact remove_stale_ok_true_acquired _ _ _ hb2
    exact grantOf_ok_unique trace a b hga hgb

/-- C8 witness: two callers racing on one corpse, the trace granting caller 0
the cleaner, produce at most one `Ok(true)`. -/
theorem concurrent_cleanup_at_most_one_ok_true_witness :
    ((List.range 2).filter (fun i =>
      decide (DeadNodeView.remove_stale_resources (exViews i) (exMbs i) (exSbs i) =
        ExecResult.ok true))).length ≤ 1 :=
  concurrent_cleanup_at_most_one_ok_true exTrace 2 exViews exMbs exSbs (fun _ => rfl)

end Iceoryx2
